import Mathlib

/-!
Verification development for the smeta_2 Telegram bot (`main_bot.py`).

Python strings are modelled as `List Char` (the inputs at issue are ASCII
or plain Unicode text, for which this is faithful).  Python `dict`s whose
shape matters are modelled as explicit structures or association lists;
fallible Python code returns `Option`/an explicit result type, with `none`
(or `.exc`) standing for a raised exception.
-/

/-- The characters stripped by Python `str.strip()` and matched by the
regex class `\s` (ASCII range): space, tab, newline, carriage return,
vertical tab, form feed. -/
def isPySpace (c : Char) : Bool :=
  c = ' ' || c = '\t' || c = '\n' || c = '\r' || c = '\x0b' || c = '\x0c'

/-- Python `s.lstrip()`. -/
def lstrip (s : List Char) : List Char := s.dropWhile isPySpace

/-- Python `s.rstrip()`. -/
def rstrip (s : List Char) : List Char := (s.reverse.dropWhile isPySpace).reverse

/-- Python `s.strip()`. -/
def pyStrip (s : List Char) : List Char := rstrip (lstrip s)

/-- The character class `[a-zA-Z0-9_+-]` of the opening-fence regex in
`_strip_code_fences`. -/
def isLangChar (c : Char) : Bool :=
  c.isAlpha || c.isDigit || c = '_' || c = '+' || c = '-'

/-- `re.sub(r"^```[a-zA-Z0-9_+-]*\s*", "", s)`: when `s` starts with a
backtick fence, drop the three backticks, then the maximal run of
language-tag characters, then the maximal run of whitespace (the regex is
anchored, so it rewrites at most the prefix; greediness of `*` with
nothing after it means maximal runs). -/
def dropOpeningFence (s : List Char) : List Char :=
  match s with
  | '\x60' :: '\x60' :: '\x60' :: rest =>
      (rest.dropWhile isLangChar).dropWhile isPySpace
  | l => l

/-- `re.sub(r"\n?```\s*$", "", s)`.  A match exists iff, after removing
trailing whitespace, the string ends in three backticks (the `\s*$` part
must cover the rest of the string, and backticks are not whitespace, so
the ``` of the pattern is the unique final fence whose suffix is all
whitespace).  The leftmost match additionally absorbs one `\n` right
before that fence when present.  So: drop trailing whitespace; if the
result ends in three backticks, drop them and one preceding newline if
any; otherwise the regex does not match and `s` is unchanged. -/
def dropTrailingFence (s : List Char) : List Char :=
  match s.reverse.dropWhile isPySpace with
  | '\x60' :: '\x60' :: '\x60' :: '\n' :: rest => rest.reverse
  | '\x60' :: '\x60' :: '\x60' :: rest => rest.reverse
  | _ => s

/-- Whether a string starts with a backtick code fence. -/
def startsWithFence (s : List Char) : Bool :=
  match s with
  | '\x60' :: '\x60' :: '\x60' :: _ => true
  | _ => false

/-- `_strip_code_fences` from `main_bot.py`: strip whitespace; if the
result starts with a ``` fence, remove the opening fence (with optional
language tag) and the trailing fence, then strip again. -/
def strip_code_fences (s : List Char) : List Char :=
  let s1 := pyStrip s
  if startsWithFence s1 then
    pyStrip (dropTrailingFence (dropOpeningFence s1))
  else s1

-- sanity checks of the embedding on ordinary fenced inputs
example :
    strip_code_fences ("\x60\x60\x60json\n\x7b\x7d\n\x60\x60\x60".toList)
      = "\x7b\x7d".toList := by decide

example : strip_code_fences ("  hello  ".toList) = "hello".toList := by decide

/-! ## JSON model

A JSON value type and a strict parser modelling `json.loads` on the
fragment the bot's responses use: `null`, booleans, strings with the
standard single-character escapes, integer/decimal numerals without an
exponent part, arrays, and objects.  Numbers are represented as `Rat`.
`none` models a raised `JSONDecodeError`: in particular the whole input
must be consumed (up to surrounding whitespace), so leading or trailing
garbage is rejected exactly as `json.loads` rejects it. -/

inductive JVal where
  | null : JVal
  | bool (b : Bool) : JVal
  | num (q : Rat) : JVal
  | str (s : List Char) : JVal
  | arr (xs : List JVal) : JVal
  | obj (fields : List (List Char × JVal)) : JVal

/-- Whitespace accepted between JSON tokens by `json.loads`. -/
def isJsonWs (c : Char) : Bool :=
  c = ' ' || c = '\t' || c = '\n' || c = '\r'

def skipWs (l : List Char) : List Char := l.dropWhile isJsonWs

/-- Numeric value of a digit string. -/
def digitsVal (l : List Char) : Nat :=
  l.foldl (fun a c => 10 * a + (c.toNat - 48)) 0

/-- Value of a JSON numeral with optional sign and fractional digits
(built with `mkRat` so that it evaluates by kernel reduction). -/
def numVal (neg : Bool) (ip fp : List Char) : Rat :=
  let n : Int := (digitsVal ip * 10 ^ fp.length + digitsVal fp : Nat)
  mkRat (if neg then -n else n) (10 ^ fp.length)

/-- JSON forbids leading zeros in the integer part. -/
def validIntPart (ip : List Char) : Bool :=
  match ip with
  | [] => false
  | ['0'] => true
  | c :: _ => c ≠ '0'

/-- Parse a JSON numeral after the optional minus sign; rejects an
exponent part (not used by any input considered here). -/
def parseNum (neg : Bool) (l : List Char) : Option (JVal × List Char) :=
  let ip := l.takeWhile Char.isDigit
  let r1 := l.dropWhile Char.isDigit
  if validIntPart ip then
    match r1 with
    | '.' :: r2 =>
      let fp := r2.takeWhile Char.isDigit
      let r3 := r2.dropWhile Char.isDigit
      if fp.isEmpty then none
      else match r3 with
        | 'e' :: _ => none
        | 'E' :: _ => none
        | _ => some (.num (numVal neg ip fp), r3)
    | 'e' :: _ => none
    | 'E' :: _ => none
    | _ => some (.num (numVal neg ip []), r1)
  else none

/-- Parse the body of a JSON string literal (after the opening quote),
with the standard escapes; a raw control character is rejected, `\u`
escapes are outside the modelled fragment. -/
def parseStr : Nat → List Char → Option (List Char × List Char)
  | 0, _ => none
  | _ + 1, [] => none
  | fuel + 1, c :: r =>
    if c = '"' then some ([], r)
    else if c = '\\' then
      match r with
      | '"' :: r2 => (parseStr fuel r2).map (fun p => ('"' :: p.1, p.2))
      | '\\' :: r2 => (parseStr fuel r2).map (fun p => ('\\' :: p.1, p.2))
      | '/' :: r2 => (parseStr fuel r2).map (fun p => ('/' :: p.1, p.2))
      | 'b' :: r2 => (parseStr fuel r2).map (fun p => ('\x08' :: p.1, p.2))
      | 'f' :: r2 => (parseStr fuel r2).map (fun p => ('\x0c' :: p.1, p.2))
      | 'n' :: r2 => (parseStr fuel r2).map (fun p => ('\n' :: p.1, p.2))
      | 'r' :: r2 => (parseStr fuel r2).map (fun p => ('\r' :: p.1, p.2))
      | 't' :: r2 => (parseStr fuel r2).map (fun p => ('\t' :: p.1, p.2))
      | _ => none
    else if c.toNat < 32 then none
    else (parseStr fuel r).map (fun p => (c :: p.1, p.2))

mutual

/-- Recursive-descent JSON value parser (fuel-indexed; the fuel passed in
by `json_loads` is always sufficient for the inputs considered). -/
def parseVal : Nat → List Char → Option (JVal × List Char)
  | 0, _ => none
  | fuel + 1, l =>
    match l with
    | 'n' :: 'u' :: 'l' :: 'l' :: r => some (.null, r)
    | 't' :: 'r' :: 'u' :: 'e' :: r => some (.bool true, r)
    | 'f' :: 'a' :: 'l' :: 's' :: 'e' :: r => some (.bool false, r)
    | '"' :: r => (parseStr (fuel + 1) r).map (fun p => (.str p.1, p.2))
    | '\x7b' :: r => parseObjBody fuel (skipWs r)
    | '[' :: r => parseArrBody fuel (skipWs r)
    | '-' :: r => parseNum true r
    | c :: r =>
      if c.isDigit then parseNum false (c :: r) else none
    | [] => none

/-- Parse an object body after `\x7b` and leading whitespace. -/
def parseObjBody : Nat → List Char → Option (JVal × List Char)
  | 0, _ => none
  | fuel + 1, l =>
    match l with
    | '\x7d' :: r => some (.obj [], r)
    | _ => parseMembers fuel l []

/-- Parse the members of a nonempty object. -/
def parseMembers : Nat → List Char → List (List Char × JVal) →
    Option (JVal × List Char)
  | 0, _, _ => none
  | fuel + 1, l, acc =>
    match l with
    | '"' :: r =>
      match parseStr (fuel + 1) r with
      | none => none
      | some (key, r1) =>
        match skipWs r1 with
        | ':' :: r2 =>
          match parseVal fuel (skipWs r2) with
          | none => none
          | some (v, r3) =>
            match skipWs r3 with
            | ',' :: r4 => parseMembers fuel (skipWs r4) (acc ++ [(key, v)])
            | '\x7d' :: r4 => some (.obj (acc ++ [(key, v)]), r4)
            | _ => none
        | _ => none
    | _ => none

/-- Parse an array body after `[` and leading whitespace. -/
def parseArrBody : Nat → List Char → Option (JVal × List Char)
  | 0, _ => none
  | fuel + 1, l =>
    match l with
    | ']' :: r => some (.arr [], r)
    | _ => parseElems fuel l []

/-- Parse the elements of a nonempty array. -/
def parseElems : Nat → List Char → List JVal → Option (JVal × List Char)
  | 0, _, _ => none
  | fuel + 1, l, acc =>
    match parseVal fuel l with
    | none => none
    | some (v, r) =>
      match skipWs r with
      | ',' :: r2 => parseElems fuel (skipWs r2) (acc ++ [v])
      | ']' :: r2 => some (.arr (acc ++ [v]), r2)
      | _ => none

end

/-- `json.loads`: parse one JSON value and require that nothing but
whitespace follows.  `none` models a raised `JSONDecodeError`. -/
def json_loads (s : List Char) : Option JVal :=
  match parseVal (3 * s.length + 16) (skipWs s) with
  | some (v, rest) => if (skipWs rest).isEmpty then some v else none
  | none => none

example : json_loads ("\x7b\"a\": 1\x7d".toList)
    = some (.obj [("a".toList, .num 1)]) := rfl
example : json_loads (" [1, 2.5, \"x\", true, null] ".toList)
    = some (.arr [.num 1, .num (mkRat 5 2), .str "x".toList, .bool true, .null]) := rfl
example : json_loads ("noise \x7b\x7d".toList) = none := rfl
example : json_loads ("\x7b\x7d trailing".toList) = none := rfl
example : json_loads ("-12.25".toList) = some (.num (mkRat (-49) 4)) := rfl
example : json_loads ("01".toList) = none := rfl

/-! ## Relaxed JSON recovery (`_relaxed_json_parse`) -/

/-- `s.find(c)`: index of the first occurrence of `c`, `none` for `-1`. -/
def firstIdxOf (c : Char) (s : List Char) : Option Nat :=
  List.findIdx? (fun d => d = c) s

/-- `s.rfind(c)`: index of the last occurrence of `c`, `none` for `-1`. -/
def lastIdxOf (c : Char) (s : List Char) : Option Nat :=
  (List.findIdx? (fun d => d = c) s.reverse).map (fun i => s.length - 1 - i)

/-- Python slice `s[a:b]`. -/
def pySlice (s : List Char) (a b : Nat) : List Char := (s.take b).drop a

/-- The brace-balance scan of `_relaxed_json_parse`: walk the string
tracking `\x7b`/`\x7d` depth; `start` is set at the first opening brace
(and reset to `None` after a balanced span that fails to parse); when the
depth returns to zero with `start` set, try `json.loads` on the balanced
span and return its value on success. -/
def scanBalancedGo (s : List Char) : List Char → Nat → Nat → Option Nat →
    Option JVal
  | [], _, _, _ => none
  | c :: r, i, depth, start =>
    if c = '\x7b' then
      scanBalancedGo s r (i + 1) (depth + 1)
        (if start.isNone then some i else start)
    else if c = '\x7d' then
      if 0 < depth then
        if depth = 1 then
          match start with
          | some st =>
            match json_loads (pySlice s st (i + 1)) with
            | some v => some v
            | none => scanBalancedGo s r (i + 1) 0 none
          | none => scanBalancedGo s r (i + 1) 0 none
        else scanBalancedGo s r (i + 1) (depth - 1) start
      else scanBalancedGo s r (i + 1) depth start
    else scanBalancedGo s r (i + 1) depth start

def scanBalanced (s : List Char) : Option JVal := scanBalancedGo s s 0 0 none

/-- `_relaxed_json_parse` from `main_bot.py`: strip code fences; try a
direct parse; otherwise try the slice from the first `\x7b` to the last
`\x7d`, then the brace-balance scan; otherwise the slice from the first
`[` to the last `]` (an exception from this last parse propagates);
otherwise re-raise by parsing the stripped text again.  `none` models a
raised exception. -/
def relaxed_json_parse (raw : List Char) : Option JVal :=
  let s := strip_code_fences raw
  match json_loads s with
  | some v => some v
  | none =>
    let objAttempt : Option JVal :=
      match firstIdxOf '\x7b' s, lastIdxOf '\x7d' s with
      | some fb, some lb =>
        if fb < lb then
          match json_loads (pySlice s fb (lb + 1)) with
          | some v => some v
          | none => scanBalanced s
        else none
      | _, _ => none
    match objAttempt with
    | some v => some v
    | none =>
      match firstIdxOf '[' s, lastIdxOf ']' s with
      | some fs, some ls =>
        if fs < ls then json_loads (pySlice s fs (ls + 1)) else json_loads s
      | _, _ => json_loads s

-- sanity checks of the embedding
example : relaxed_json_parse ("\x60\x60\x60json\n\x7b\"k\": 2\x7d\n\x60\x60\x60".toList)
    = some (.obj [("k".toList, .num 2)]) := rfl
example : relaxed_json_parse ("pre \x7b\"a\": 1\x7d \x7b\"b\": 2\x7d post".toList)
    = some (.obj [("a".toList, .num 1)]) := rfl
example : relaxed_json_parse ("see [1, 2] done".toList)
    = some (.arr [.num 1, .num 2]) := rfl
example : relaxed_json_parse ("no json here".toList) = none := rfl

/-! ## Gemini retry loop (`run_gemini_with_retry`) -/

/-- `MAX_RETRIES` from `main_bot.py`. -/
def MAX_RETRIES : Nat := 3

/-- A model-call failure: the exception's string rendering and whether it
is an `asyncio.TimeoutError` instance. -/
structure GemError where
  msg : List Char
  is_timeout : Bool
deriving DecidableEq

/-- Python `str.lower()` (ASCII case folding suffices here). -/
def pyLower (s : List Char) : List Char := s.map Char.toLower

/-- Python `pat in s` substring test. -/
def pyContains (pat : List Char) : List Char → Bool
  | [] => pat.isEmpty
  | c :: r => pat.isPrefixOf (c :: r) || pyContains pat r

/-- The transient-failure test of `run_gemini_with_retry`:
`"500" in str(e) or "internal error" in str(e).lower() or
isinstance(e, asyncio.TimeoutError)`. -/
def retryable_condition (e : GemError) : Bool :=
  pyContains ("500".toList) e.msg
    || pyContains ("internal error".toList) (pyLower e.msg)
    || e.is_timeout

/-- One pass of the retry loop; `model k` is the outcome of the
`(k+1)`-th call attempt, `retries` the Python loop counter, `last` the
`last_exception` variable, and the fuel argument is
`MAX_RETRIES - retries`, which bounds the remaining iterations of
`while retries < MAX_RETRIES`.  Returns the outcome (raised error or
returned response) paired with the number of attempts made. -/
def retryAux {α : Type} (model : Nat → Except GemError α) :
    Nat → Nat → Option GemError → Except GemError α × Nat
  | 0, retries, last =>
    -- the while-condition is false: `raise last_exception`
    (.error (last.getD ⟨[], false⟩), retries)
  | fuel + 1, retries, _ =>
    match model retries with
    | .ok v => (.ok v, retries + 1)
    | .error e =>
      if retryable_condition e && decide (retries < MAX_RETRIES - 1) then
        retryAux model fuel (retries + 1) (some e)
      else (.error e, retries + 1)

/-- `run_gemini_with_retry` from `main_bot.py`, as a function of the
per-attempt outcomes of the wrapped model call. -/
def run_gemini_with_retry {α : Type} (model : Nat → Except GemError α) :
    Except GemError α × Nat :=
  retryAux model MAX_RETRIES 0 none

-- sanity checks of the embedding
example :
    run_gemini_with_retry (fun _ => (.ok 42 : Except GemError Nat))
      = (.ok 42, 1) := rfl
example :
    run_gemini_with_retry
      (fun k => (.error ⟨s!"boom {k}".toList, true⟩ : Except GemError Nat))
      = (.error ⟨"boom 2".toList, true⟩, 3) := rfl
example :
    run_gemini_with_retry
      (fun k => if k = 0 then (.error ⟨"500".toList, false⟩ : Except GemError Nat)
                else .ok 7)
      = (.ok 7, 2) := rfl

/-! ## Fallback ladder (`run_gemini_with_fallback`) and degraded data -/

/-- `re.sub(r'<[^>]+>', '\n', html)`: each maximal `<...>` group (one or
more non-`>` characters between the angle brackets) is replaced by a
newline; a `<` with no later `>` (or immediately followed by `>`) does
not match and is kept. -/
def findTagEnd : List Char → Option (List Char)
  | [] => none
  | '>' :: _ => none
  | _ :: rest =>
    let rec go : List Char → Option (List Char)
      | [] => none
      | '>' :: r => some r
      | _ :: r => go r
    go rest

/-- Fuel-indexed scan for `stripTags`; every step consumes at least one
character, so `length` fuel suffices. -/
def stripTagsGo : Nat → List Char → List Char
  | 0, l => l
  | _ + 1, [] => []
  | fuel + 1, '<' :: rest =>
    match findTagEnd rest with
    | some rest2 => '\n' :: stripTagsGo fuel rest2
    | none => '<' :: stripTagsGo fuel rest
  | fuel + 1, c :: rest => c :: stripTagsGo fuel rest

def stripTags (l : List Char) : List Char := stripTagsGo l.length l

/-- Python `s.split('\n')`. -/
def splitNl : List Char → List (List Char)
  | [] => [[]]
  | '\n' :: r => [] :: splitNl r
  | c :: r =>
    match splitNl r with
    | [] => [[c]]
    | h :: t => (c :: h) :: t

/-- One token of the regex `\d+[,.]?\d*`, starting at a digit: maximal
digit run, then an optional single comma or dot, then a maximal digit
run.  Returns the token and the remaining input. -/
def numTok (l : List Char) : List Char × List Char :=
  let d1 := l.takeWhile Char.isDigit
  let r1 := l.dropWhile Char.isDigit
  match r1 with
  | c :: r2 =>
    if c = ',' || c = '.' then
      (d1 ++ c :: r2.takeWhile Char.isDigit, r2.dropWhile Char.isDigit)
    else (d1, r1)
  | [] => (d1, [])

/-- `re.findall(r'\d+[,.]?\d*', text)`: left-to-right scan collecting
the (non-overlapping, leftmost, greedy) matches.  Fuel-indexed; each
step consumes at least one character, so `text.length` fuel suffices. -/
def findallNumGo : Nat → List Char → List (List Char)
  | 0, _ => []
  | _ + 1, [] => []
  | fuel + 1, c :: rest =>
    if c.isDigit then
      let p := numTok (c :: rest)
      p.1 :: findallNumGo fuel p.2
    else findallNumGo fuel rest

def findallNum (l : List Char) : List (List Char) := findallNumGo l.length l

/-- `n.replace(',', '.')` on a single character. -/
def commaToDot (c : Char) : Char := if c = ',' then '.' else c

/-- Python `str.isdigit` (ASCII): nonempty and all digits. -/
def pyIsDigitStr (l : List Char) : Bool := !l.isEmpty && l.all Char.isDigit

/-- The guard of the degraded-mass comprehension:
`n.replace(',', '.').replace('.', '').isdigit()`. -/
def massTokOk (t : List Char) : Bool :=
  pyIsDigitStr ((t.map commaToDot).filter (fun c => c ≠ '.'))

/-- `float(n.replace(',', '.'))` on a numeric token (digits, optionally a
dot and further digits), as an exact rational. -/
def ratOfTok (t : List Char) : Rat :=
  let u := t.map commaToDot
  let ip := u.takeWhile Char.isDigit
  match u.dropWhile Char.isDigit with
  | '.' :: fp => numVal false ip (fp.takeWhile Char.isDigit)
  | _ => numVal false ip []

/-- Rational addition written with `mkRat` so that it evaluates by
kernel reduction (Batteries marks `Rat.add` irreducible). -/
def addRat (a b : Rat) : Rat :=
  mkRat (a.num * (b.den : Int) + b.num * (a.den : Int)) (a.den * b.den)

/-- Python `sum(...)` over rationals. -/
def ratSum (l : List Rat) : Rat := l.foldl addRat 0

/-- The degraded strategy's synthetic mass:
`sum([float(n.replace(',', '.')) for n in numbers[:10] if ...]) if
numbers else 0.0`, where `numbers = re.findall(r'\d+[,.]?\d*', plain)`. -/
def fallback_mass (plain : List Char) : Rat :=
  let numbers := findallNum plain
  if numbers.isEmpty then 0
  else ratSum (((numbers.take 10).filter massTokOk).map ratOfTok)

/-- The `fallback_data` dict built by strategy 4 of
`run_gemini_with_fallback` (the degraded-archive strategy). -/
def fallback_data (html : List Char) : JVal :=
  let plain := stripTags html
  let lines := ((splitNl plain).map pyStrip).filter (fun l => !l.isEmpty)
  let numbers := findallNum plain
  let desc :=
    "OCR данные (".toList ++ (Nat.repr lines.length).toList
      ++ " строк, ".toList ++ (Nat.repr numbers.length).toList
      ++ " чисел)".toList
  .obj [("единица_измерения".toList, .str "т".toList),
        ("профили".toList, .obj
          [("Исходные данные OCR".toList, .obj
            [("марки_стали".toList, .obj
              [("Требует проверки".toList, .obj
                [("размеры".toList, .obj
                  [("Все размеры из документа".toList, .obj
                    [("элементы".toList, .arr
                      [.obj [("тип".toList, .str desc),
                             ("позиции".toList,
                               .arr [.str "Весь документ".toList]),
                             ("масса".toList, .num (fallback_mass plain))]])])])])])])])]

/-- Outcome of a Python expression that can raise: a value or an
exception. -/
inductive PyResult (α : Type) where
  | ok (val : α) : PyResult α
  | exc : PyResult α
deriving DecidableEq

/-- The outcomes of the effectful sub-steps of one
`run_gemini_with_fallback` call: the two model-call-plus-parse
strategies and each `chat.send_message` call, in source order. -/
structure FallbackEnv where
  strategy1 : PyResult JVal
  notify_warn : PyResult Unit
  notify_s3_start : PyResult Unit
  strategy3 : PyResult JVal
  notify_s3_done : PyResult Unit
  notify_s4 : PyResult Unit

/-- Strategy 4 of `run_gemini_with_fallback`: an unguarded
`await chat.send_message(...)` (any exception from it propagates to the
caller), then the pure construction of `fallback_data`. -/
def degraded_branch (env : FallbackEnv) (html : List Char) : PyResult JVal :=
  match env.notify_s4 with
  | .exc => .exc
  | .ok _ => .ok (fallback_data html)

/-- `run_gemini_with_fallback` from `main_bot.py` as a function of the
sub-step outcomes: strategy 1; on failure a warning notification wrapped
in `try/except: pass` (its outcome is ignored), then strategy 3 inside a
`try` whose first statement is a notification; any failure inside that
`try` falls to the `except` block running strategy 4. -/
def run_gemini_with_fallback (env : FallbackEnv) (html : List Char) :
    PyResult JVal :=
  match env.strategy1 with
  | .ok j => .ok j
  | .exc =>
    match env.notify_s3_start with
    | .exc => degraded_branch env html
    | .ok _ =>
      match env.strategy3 with
      | .exc => degraded_branch env html
      | .ok j =>
        match env.notify_s3_done with
        | .exc => degraded_branch env html
        | .ok _ => .ok j

-- sanity checks of the embedding
example : findallNum ("12,5 7.0 abc".toList)
    = ["12,5".toList, "7.0".toList] := by decide
example : fallback_mass ("12,5 7.0 abc".toList) = mkRat 39 2 := by decide
example : fallback_mass ("".toList) = 0 := by decide
example : stripTags ("<td>5</td><td>x</td>".toList) = "\n5\n\nx\n".toList := by
  decide

/-! ## Feedback timeout scheduling (`schedule_feedback_timeout`,
`finalize_yandex_entry`, `handle_feedback`)

The `pending_feedback_tasks` dict maps a user id to a task dict; because
the Python code mutates the task dict in place (`...["cancel"] = True`)
and the timer closure re-reads the dict through the global map at fire
time, task dicts are given identity: they live in a heap (`tasks`, a
list indexed by allocation order) and the map stores indices.  `records`
models the `feedback_status` field of each archive's `meta.json` in
Yandex Storage (`none`: no `meta.json` at that path). -/

structure TaskRec where
  base_path : List Char
  cancel : Bool
deriving DecidableEq

structure BotState where
  tasks : List TaskRec
  pending : Nat → Option Nat
  records : List Char → Option (List Char)

/-- A timer thread armed by `schedule_feedback_timeout`: the
`timeout_handler` closure captures `user_id` and `base_path` (not the
task dict itself). -/
structure TimerHandle where
  user : Nat
  base_path : List Char

/-- Set the `cancel` flag of the task dict at heap index `tid`. -/
def setCancel (tasks : List TaskRec) (tid : Nat) : List TaskRec :=
  tasks.set tid { (tasks.getD tid ⟨[], true⟩) with cancel := true }

/-- `save_to_yandex_initial` (the part relevant here): writes `meta.json`
with `feedback_status: "pending"`. -/
def save_initial (path : List Char) (s : BotState) : BotState :=
  { s with records := fun p => if p = path then some ("pending".toList)
                               else s.records p }

/-- `finalize_yandex_entry(base_path, feedback_status)`: if `meta.json`
exists at the path, rewrite its `feedback_status`; otherwise log and
return without touching anything. -/
def finalize_yandex_entry (path status : List Char)
    (records : List Char → Option (List Char)) :
    List Char → Option (List Char) :=
  match records path with
  | some _ => fun p => if p = path then some status else records p
  | none => records

/-- `schedule_feedback_timeout(user_id, base_path)`: set the `cancel`
flag on the task dict currently registered for the user (if any), then
bind the user to a freshly allocated task dict
`\x7b"base_path": ..., "cancel": False\x7d`, and arm a timer thread whose
closure captures `user_id` and `base_path`. -/
def schedule_feedback_timeout (u : Nat) (path : List Char) (s : BotState) :
    BotState × TimerHandle :=
  let s1 :=
    match s.pending u with
    | some tid => { s with tasks := setCancel s.tasks tid }
    | none => s
  let tid2 := s1.tasks.length
  ({ s1 with
      tasks := s1.tasks ++ [⟨path, false⟩],
      pending := fun v => if v = u then some tid2 else s1.pending v },
   ⟨u, path⟩)

/-- The timer's `timeout_handler` after its sleep: look the user up in
the global `pending_feedback_tasks`; if an entry exists and its `cancel`
flag is unset, finalize the closure's `base_path` with `"timeout"` and
pop the entry; otherwise do nothing. -/
def fire_timer (t : TimerHandle) (s : BotState) : BotState :=
  match s.pending t.user with
  | some tid =>
    if (s.tasks.getD tid ⟨[], true⟩).cancel then s
    else
      { s with
          records := finalize_yandex_entry t.base_path ("timeout".toList)
            s.records,
          pending := fun v => if v = t.user then none else s.pending v }
  | none => s

/-- `handle_feedback` (the interactive feedback callback), for a session
whose archive is `path` and a verdict of `"good"` or `"bad"`: set the
`cancel` flag on the user's pending task dict and pop the entry, then
finalize the archive with the verdict. -/
def handle_feedback (u : Nat) (path verdict : List Char) (s : BotState) :
    BotState :=
  let s1 :=
    match s.pending u with
    | some tid =>
      { s with
          tasks := setCancel s.tasks tid,
          pending := fun v => if v = u then none else s.pending v }
    | none => s
  { s1 with records := finalize_yandex_entry path verdict s1.records }

/-- The empty initial state. -/
def initState : BotState :=
  { tasks := [], pending := fun _ => none, records := fun _ => none }

/-! ## Page-location decision (`handle_document` / `handle_file_url`)

`page_number = result.get("page", 0); if page_number == 0:` request
manual entry `else:` accept the page and rasterize `page_number - 1`.
The argument models the parsed response's integer `page` field, `none`
for an absent key. -/

inductive PageDecision where
  | notFound : PageDecision
  | found (page : Int) : PageDecision
deriving DecidableEq

def handle_document_page (pageField : Option Int) : PageDecision :=
  let page_number := pageField.getD 0
  if page_number = 0 then .notFound else .found page_number

/-! ## Stripping lemmas -/

theorem rstrip_eq_rdropWhile (l : List Char) :
    rstrip l = List.rdropWhile isPySpace l := rfl

theorem rstrip_idem (l : List Char) : rstrip (rstrip l) = rstrip l := by
  simpa [rstrip_eq_rdropWhile] using List.rdropWhile_idempotent isPySpace l

theorem lstrip_idem (l : List Char) : lstrip (lstrip l) = lstrip l :=
  List.dropWhile_idempotent isPySpace l

theorem lstrip_of_rstrip (a : List Char) (ha : lstrip a = a) :
    lstrip (rstrip a) = rstrip a := by
  unfold lstrip at ha ⊢
  rw [List.dropWhile_eq_self_iff] at ha ⊢
  intro hl
  have hpre : rstrip a <+: a := List.rdropWhile_prefix isPySpace a
  have hlen : 0 < a.length := lt_of_lt_of_le hl hpre.length_le
  have h0 := List.IsPrefix.getElem hpre hl
  simp only [List.get_eq_getElem]
  rw [h0]
  simpa using ha hlen

theorem pyStrip_idem (s : List Char) : pyStrip (pyStrip s) = pyStrip s := by
  unfold pyStrip
  rw [lstrip_of_rstrip (lstrip s) (lstrip_idem s), rstrip_idem]

/-- The output of `_strip_code_fences` is always whitespace-stripped. -/
theorem strip_code_fences_pyStrip_fix (s : List Char) :
    pyStrip (strip_code_fences s) = strip_code_fences s := by
  by_cases h : startsWithFence (pyStrip s) <;>
    simp [strip_code_fences, h, pyStrip_idem]

/-! ## Numeric-token lemmas -/

theorem digit_ne_comma {c : Char} (h : c.isDigit = true) : c ≠ ',' := by
  intro he; subst he; exact absurd h (by decide)

theorem digit_ne_dot {c : Char} (h : c.isDigit = true) : c ≠ '.' := by
  intro he; subst he; exact absurd h (by decide)

/-- On an all-digit string, the comma-to-dot normalization followed by
dot removal is the identity. -/
theorem normalize_digits {l : List Char} (h : l.all Char.isDigit = true) :
    (l.map commaToDot).filter (fun c => c ≠ '.') = l := by
  induction l with
  | nil => rfl
  | cons c r ih =>
    rw [List.all_cons, Bool.and_eq_true] at h
    have hc : commaToDot c = c := by
      unfold commaToDot
      rw [if_neg]
      simp [digit_ne_comma h.1]
    simp only [List.map_cons, hc, List.filter_cons]
    rw [if_pos (by simp [digit_ne_dot h.1]), ih h.2]

theorem takeWhile_digits (l : List Char) :
    (l.takeWhile Char.isDigit).all Char.isDigit = true := by
  rw [List.all_eq_true]
  intro c hc
  exact List.mem_takeWhile_imp hc

theorem massTokOk_digits {d1 : List Char} (h1 : d1.all Char.isDigit = true)
    (hne : d1 ≠ []) : massTokOk d1 = true := by
  unfold massTokOk pyIsDigitStr
  rw [normalize_digits h1]
  simp [hne, h1, List.isEmpty_iff]

theorem massTokOk_sep {d1 d2 : List Char} {sep : Char}
    (h1 : d1.all Char.isDigit = true) (hne : d1 ≠ [])
    (h2 : d2.all Char.isDigit = true) (hsep : sep = ',' ∨ sep = '.') :
    massTokOk (d1 ++ sep :: d2) = true := by
  unfold massTokOk pyIsDigitStr
  have hsep2 : commaToDot sep = '.' := by
    rcases hsep with h | h <;> subst h <;> rfl
  rw [List.map_append, List.filter_append, normalize_digits h1,
    List.map_cons, hsep2, List.filter_cons]
  rw [if_neg (by simp), normalize_digits h2]
  simp only [List.all_append, h1, h2, Bool.and_self, Bool.and_true]
  simp [List.isEmpty_iff, hne]

/-- Every token matched by `\d+[,.]?\d*` passes the
`replace(',', '.').replace('.', '').isdigit()` guard. -/
theorem numTok_ok {c : Char} {r : List Char} (hc : c.isDigit = true) :
    massTokOk (numTok (c :: r)).1 = true := by
  unfold numTok
  have hd1 : (c :: r).takeWhile Char.isDigit
      = c :: r.takeWhile Char.isDigit := by
    simp [List.takeWhile_cons, hc]
  have hall : ((c :: r).takeWhile Char.isDigit).all Char.isDigit = true :=
    takeWhile_digits _
  have hne : (c :: r).takeWhile Char.isDigit ≠ [] := by
    rw [hd1]; exact List.cons_ne_nil _ _
  cases hr : (c :: r).dropWhile Char.isDigit with
  | nil => simpa using massTokOk_digits hall hne
  | cons c2 r2 =>
    by_cases h2 : c2 = ',' || c2 = '.'
    · have : c2 = ',' ∨ c2 = '.' := by
        rcases Bool.or_eq_true_iff.mp h2 with h | h
        · exact Or.inl (by simpa using h)
        · exact Or.inr (by simpa using h)
      simp only [h2, if_true]
      exact massTokOk_sep hall hne (takeWhile_digits r2) this
    · simp only [h2, if_false]
      simpa using massTokOk_digits hall hne

theorem mem_findallNumGo_ok :
    ∀ (fuel : Nat) (l t : List Char), t ∈ findallNumGo fuel l →
      massTokOk t = true := by
  intro fuel
  induction fuel with
  | zero => intro l t h; simp [findallNumGo] at h
  | succ fuel ih =>
    intro l t h
    cases l with
    | nil => simp [findallNumGo] at h
    | cons c rest =>
      by_cases hc : c.isDigit
      · rw [findallNumGo, if_pos hc] at h
        rcases List.mem_cons.mp h with h | h
        · subst h; exact numTok_ok hc
        · exact ih _ _ h
      · rw [findallNumGo, if_neg hc] at h
        exact ih _ _ h

/-- The `isdigit` guard of the degraded-mass comprehension never rejects
a token the regex produced, so the filtered sum is the plain sum. -/
theorem fallback_mass_eq_unfiltered (plain : List Char) :
    fallback_mass plain
      = ratSum (((findallNum plain).take 10).map ratOfTok) := by
  unfold fallback_mass
  by_cases h : (findallNum plain).isEmpty
  · rw [if_pos h]
    rw [List.isEmpty_iff] at h
    rw [h]
    rfl
  · rw [if_neg h]
    congr 1
    congr 1
    rw [List.filter_eq_self]
    intro t ht
    exact mem_findallNumGo_ok _ _ _ (List.take_subset _ _ ht)

/-! ## Claim C1 -/

def c1_user : Nat := 1
def c1_pathA : List Char := "archives/A".toList
def c1_pathB : List Char := "archives/B".toList

/-- The C1 scenario: save and schedule archive A for user 1, then save
and schedule archive B for the same user before A's timer fires.  Both
timers are armed with the same delay, so A's timer (armed first) fires
first, then B's. -/
def c1_trace : BotState :=
  let s0 := save_initial c1_pathA initState
  let p1 := schedule_feedback_timeout c1_user c1_pathA s0
  let s1 := save_initial c1_pathB p1.1
  let p2 := schedule_feedback_timeout c1_user c1_pathB s1
  let s2 := fire_timer p1.2 p2.1
  fire_timer p2.2 s2

/-- Claim C1: schedule a timeout for user U with path A, then again with
path B before A's timer fires; the claim says only B's record leaves
"pending" and A's stays "pending".  The code does the opposite: A's
timer re-reads the user's entry from the global map, finds B's fresh
(uncanceled) task dict there — the cancel flag was set on A's dict,
which the map no longer holds — finalizes its own path A with "timeout"
and pops the entry, so B's timer then no-ops and B stays "pending". -/
theorem superseded_timer_finalizes_old_path :
    c1_trace.records c1_pathA = some ("timeout".toList)
      ∧ c1_trace.records c1_pathB = some ("pending".toList) := by decide

/-! ## Claim C2 -/

/-- Claim C2 counterexample: when both model strategies fail and the
degraded branch's own notification raises, `run_gemini_with_fallback`
raises to its caller instead of returning the degraded value, because
that `chat.send_message` call is not wrapped in any inner `try`. -/
theorem fallback_ladder_raises_on_degraded_notifier :
    run_gemini_with_fallback
        ⟨.exc, .ok (), .ok (), .exc, .ok (), .exc⟩
        ("<td>5</td>".toList)
      = .exc := rfl

/-- Claim C2 (amended): for every input and every combination of
strategy outcomes, the fallback ladder returns a value provided the
degraded branch's notification call does not raise. -/
theorem fallback_ladder_total_when_notifier_ok (env : FallbackEnv)
    (html : List Char) (h : env.notify_s4 = .ok ()) :
    ∃ j, run_gemini_with_fallback env html = .ok j := by
  obtain ⟨s1, nw, n3, s3, nd, n4⟩ := env
  cases h
  cases s1 <;> cases n3 <;> cases s3 <;> cases nd <;>
    exact ⟨_, rfl⟩

/-- Witness for C2's amended theorem at a concrete environment. -/
theorem fallback_ladder_total_witness :
    (FallbackEnv.notify_s4 ⟨.exc, .exc, .ok (), .exc, .ok (), .ok ()⟩
        = .ok ())
      ∧ ∃ j, run_gemini_with_fallback
          ⟨.exc, .exc, .ok (), .exc, .ok (), .ok ()⟩
          ("<td>5</td>".toList) = .ok j :=
  ⟨rfl, fallback_ladder_total_when_notifier_ok _ _ rfl⟩

/-! ## Claim C3 -/

def svc_unavailable_error : GemError :=
  ⟨"503 Service Unavailable".toList, false⟩

/-- Claim C3 counterexample: a failure in the "service unavailable"
transient category is NOT classified retryable by the code (its
description contains neither "500" nor "internal error" and it is not a
timeout instance), and the invoker makes exactly one attempt on it
instead of retrying. -/
theorem service_unavailable_not_retried :
    retryable_condition svc_unavailable_error = false
      ∧ run_gemini_with_retry
          (fun _ => (.error svc_unavailable_error : Except GemError Unit))
        = (.error svc_unavailable_error, 1) :=
  ⟨by decide, rfl⟩

/-- Claim C3 (amended): the code retries exactly the failures whose
description contains "500" or (case-insensitively) "internal error", or
which are `asyncio.TimeoutError` instances — such a persistent failure
gets 3 attempts; every other failure propagates after exactly one
attempt. -/
theorem retry_attempt_count (e : GemError) :
    run_gemini_with_retry (fun _ => (.error e : Except GemError Unit))
      = (.error e, if retryable_condition e then 3 else 1) := by
  by_cases h : retryable_condition e <;>
    simp [run_gemini_with_retry, MAX_RETRIES, retryAux, h]

/-! ## Claim C4 -/

/-- Claim C4: a model stub that fails with a retryable error on every
call is attempted exactly `MAX_RETRIES = 3` times, after which the last
underlying error propagates; a stub failing with a non-retryable error
is attempted exactly once. -/
theorem retry_bound :
    (∀ errs : Nat → GemError,
        (∀ i, retryable_condition (errs i) = true) →
        run_gemini_with_retry
            (fun i => (.error (errs i) : Except GemError Unit))
          = (.error (errs 2), 3))
      ∧ (∀ e : GemError, retryable_condition e = false →
          run_gemini_with_retry (fun _ => (.error e : Except GemError Unit))
            = (.error e, 1)) := by
  constructor
  · intro errs h
    simp [run_gemini_with_retry, MAX_RETRIES, retryAux, h 0, h 1, h 2]
  · intro e h
    simp [run_gemini_with_retry, MAX_RETRIES, retryAux, h]

/-- Witness for C4 at concrete stubs: per-attempt timeout errors
"e0", "e1", "e2" (the final error is the last one), and a
non-retryable "bad request". -/
theorem retry_bound_witness :
    run_gemini_with_retry
        (fun i => (.error ⟨("e".toList ++ (Nat.repr i).toList), true⟩ :
          Except GemError Unit))
      = (.error ⟨"e2".toList, true⟩, 3)
      ∧ run_gemini_with_retry
          (fun _ => (.error ⟨"bad request".toList, false⟩ :
            Except GemError Unit))
        = (.error ⟨"bad request".toList, false⟩, 1) :=
  ⟨retry_bound.1 _ (fun i => by simp [retryable_condition]),
   retry_bound.2 _ (by decide)⟩

/-! ## Claim C5 -/

/-- Claim C5: if a feedback timeout is scheduled and, before it fires,
the interactive feedback handler finalizes the archive with "good" and
cancels the pending task (popping the user's entry), then when the timer
later fires it finds no pending entry and no-ops: the stored status is
still "good", not "timeout". -/
theorem timer_noop_after_feedback (u : Nat) (p : List Char) (s : BotState)
    (h : (s.records p).isSome = true) :
    (fire_timer (schedule_feedback_timeout u p s).2
        (handle_feedback u p ("good".toList)
          (schedule_feedback_timeout u p s).1)).records p
      = some ("good".toList) := by
  obtain ⟨v, hv⟩ := Option.isSome_iff_exists.mp h
  cases hp : s.pending u <;>
    simp [schedule_feedback_timeout, handle_feedback, fire_timer,
      finalize_yandex_entry, setCancel, hp, hv]

/-- Witness for C5 at a concrete saved archive. -/
theorem timer_noop_after_feedback_witness :
    (((save_initial ("runs/x".toList) initState).records
        ("runs/x".toList)).isSome = true)
      ∧ (fire_timer
            (schedule_feedback_timeout 1 ("runs/x".toList)
              (save_initial ("runs/x".toList) initState)).2
            (handle_feedback 1 ("runs/x".toList) ("good".toList)
              (schedule_feedback_timeout 1 ("runs/x".toList)
                (save_initial ("runs/x".toList) initState)).1)).records
          ("runs/x".toList)
        = some ("good".toList) :=
  ⟨by decide, timer_noop_after_feedback 1 _ _ (by decide)⟩

/-! ## Claim C6 -/

/-- Claim C6 counterexample: code-fence stripping is not idempotent.
For the input of six backticks followed by `x`, one application yields
three backticks followed by `x` (the trailing-fence regex does not
match), and a second application strips again down to the empty
string. -/
theorem strip_fences_not_idempotent :
    strip_code_fences (strip_code_fences
        ("\x60\x60\x60\x60\x60\x60x".toList))
      ≠ strip_code_fences ("\x60\x60\x60\x60\x60\x60x".toList) := by decide

/-- Claim C6 (amended): stripping is idempotent on exactly those inputs
whose stripped form does not itself begin with a backtick fence (which
is every ordinary fenced or unfenced payload). -/
theorem strip_fences_idem_of_no_fence (s : List Char)
    (h : startsWithFence (strip_code_fences s) = false) :
    strip_code_fences (strip_code_fences s) = strip_code_fences s := by
  conv_lhs => rw [strip_code_fences]
  rw [strip_code_fences_pyStrip_fix, h]
  simp only [Bool.false_eq_true, if_false]

/-- Witness for C6's amended theorem on an ordinary fenced input. -/
theorem strip_fences_idem_witness :
    (startsWithFence (strip_code_fences
        ("\x60\x60\x60json\n\x7b\"a\": 1\x7d\n\x60\x60\x60".toList))
      = false)
      ∧ strip_code_fences (strip_code_fences
            ("\x60\x60\x60json\n\x7b\"a\": 1\x7d\n\x60\x60\x60".toList))
          = strip_code_fences
              ("\x60\x60\x60json\n\x7b\"a\": 1\x7d\n\x60\x60\x60".toList) :=
  ⟨by decide, strip_fences_idem_of_no_fence _ (by decide)⟩

/-! ## Claim C7 -/

/-- Claim C7: relaxed JSON recovery on
`noise \x7b"a": \x7b"b": 1\x7d\x7d trailing` — the direct parse fails on
the surrounding garbage, the object-span extraction finds the outermost
braces, and the recovered value is the nested object. -/
theorem relaxed_parse_recovers_nested_object :
    relaxed_json_parse
        ("noise \x7b\"a\": \x7b\"b\": 1\x7d\x7d trailing".toList)
      = some (.obj [("a".toList, .obj [("b".toList, .num 1)])]) := rfl

/-! ## Claim C8 -/

/-- Claim C8: an absent `page` field and `page = 0` both yield NotFound
(manual page entry); `page = 5`, and any positive page, yields Found with
that page, with no upper-bound validation at this layer. -/
theorem page_locator_contract :
    handle_document_page none = .notFound
      ∧ handle_document_page (some 0) = .notFound
      ∧ handle_document_page (some 5) = .found 5
      ∧ ∀ p : Int, 0 < p → handle_document_page (some p) = .found p := by
  refine ⟨rfl, rfl, rfl, ?_⟩
  intro p hp
  unfold handle_document_page
  simp only [Option.getD_some]
  rw [if_neg (by omega)]

/-- Witness for C8's universally quantified part at page 7. -/
theorem page_locator_contract_witness :
    (0 : Int) < 7 ∧ handle_document_page (some 7) = .found 7 :=
  ⟨by decide, page_locator_contract.2.2.2 7 (by decide)⟩

/-! ## Claim C9 -/

/-- Claim C9: the degraded-archive strategy's synthetic mass is the sum
of the first 10 numeric tokens of the plain text (comma decimal
separators normalized to dots; non-numeric text contributes no tokens,
and the `isdigit` guard never rejects a matched token); in particular a
text with tokens `12,5`, `7.0` and the non-numeric `abc` sums to
19.5 = 39/2. -/
theorem degraded_mass_sums_first_ten_tokens :
    (∀ plain : List Char,
        fallback_mass plain
          = ratSum (((findallNum plain).take 10).map ratOfTok))
      ∧ fallback_mass ("12,5 7.0 abc".toList) = mkRat 39 2 :=
  ⟨fallback_mass_eq_unfiltered, by decide⟩

/-! ## Claim C10 -/

/-- Claim C10: every nonzero integer `page` — negative included — takes
the Found path at this layer; only exactly 0 or an absent field takes
the NotFound / manual-entry path, so a negative page is never rejected
here. -/
theorem nonzero_page_accepted_including_negative :
    (∀ p : Int, p ≠ 0 → handle_document_page (some p) = .found p)
      ∧ handle_document_page (some (-3)) = .found (-3)
      ∧ handle_document_page (some 0) = .notFound
      ∧ handle_document_page none = .notFound := by
  refine ⟨?_, rfl, rfl, rfl⟩
  intro p hp
  unfold handle_document_page
  simp only [Option.getD_some]
  rw [if_neg hp]

/-- Witness for C10's universally quantified part at page -7. -/
theorem nonzero_page_accepted_witness :
    ((-7 : Int) ≠ 0) ∧ handle_document_page (some (-7)) = .found (-7) :=
  ⟨by decide, nonzero_page_accepted_including_negative.1 (-7) (by decide)⟩
